import Mathlib

/-!
Verification of the RTOS task scheduler from
`Part-1/Ch-2-OS-Architecture-Patterns/src/rtos.c` and the RMS/EDF analysis
layer from `Part-2/Ch-6-CPU-Scheduling/src/realtime_scheduling_demo.c`.

Modelling conventions:
* `uint32_t` fields are modelled as `Nat`.  The only subtraction performed by
  the scheduler is `tick_count - blocked_tick`, and in every state the code
  can reach `blocked_tick ≤ tick_count` (a task's `blocked_tick` is set to the
  current `tick_count` and `tick_count` only grows), so truncated `Nat`
  subtraction agrees with the C `uint32_t` subtraction there.
* The C priority queue stores pointers `TCB*` into the kernel's task table.
  `rtos_create_task` assigns `id = kernel.num_tasks` and stores the task at
  that slot, so a pointer is equivalently represented by the task's `id`
  (the well-formedness predicate `WFids` below records exactly this fact).
  The queue itself is modelled as the C array is: an unbounded store
  `Nat → TCB` of slots together with `size`; the C declares `MAX_TASKS = 32`
  slots, so an access at an index `≥ 32` is an out-of-bounds access.
* The two sift loops of the C code walk an index monotonically (up towards 0,
  down towards `size`), so they are written with an explicit fuel argument
  that makes them structurally recursive; the fuel is chosen so that the
  exhaustion branch is never taken (sift-up needs at most `i` steps, sift-down
  at most `size`).
* Diagnostic-only fields of the C structs (`name`, `function`, `parameters`,
  `stack_pointer`) are omitted: the scheduling logic never reads them.
-/

/-- The four task states of the C `TaskState` enum. -/
inductive TaskState where
  | ready
  | running
  | blocked
  | suspended
deriving DecidableEq, Repr, Inhabited

/-- The task control block (C struct `TCB`), scheduling-relevant fields. -/
structure TCB where
  id : Nat
  priority : Nat
  deadline : Nat
  period : Nat
  state : TaskState
  blocked_tick : Nat
  timeout : Nat
  run_count : Nat
deriving DecidableEq, Repr, Inhabited

/-- The C `PriorityQueue`: an array of task slots plus the current size.
Slots at indices `≥ 32` are outside the declared `MAX_TASKS` storage. -/
structure PriorityQueue where
  tasks : Nat → TCB
  size : Nat

/-- `priority_queue_init` / a fresh queue. -/
def emptyQueue : PriorityQueue where
  tasks := fun _ => default
  size := 0

/-- The sift-up loop of C `priority_queue_insert`.  `i` starts at the old
`size`; each iteration moves to `parent = (i-1)/2`, so `fuel = i` suffices and
the fuel-exhaustion branch (first pattern with fuel `0` and `i ≠ 0`) is never
taken.  Returns the updated slot store and the final hole index that the new
task is written to. -/
def siftUpGo : Nat → (Nat → TCB) → TCB → Nat → (Nat → TCB) × Nat
  | _, tasks, _, 0 => (tasks, 0)
  | 0, tasks, _, i + 1 => (tasks, i + 1)
  | fuel + 1, tasks, t, i + 1 =>
      let parent := i / 2
      if t.priority ≤ (tasks parent).priority ∧ (tasks parent).deadline ≤ t.deadline
      then (tasks, i + 1)
      else siftUpGo fuel (Function.update tasks (i + 1) (tasks parent)) t parent

/-- C `priority_queue_insert`.  Note: the C function performs no capacity
check at all; it unconditionally executes `i = queue->size++` and sifts up. -/
def priority_queue_insert (q : PriorityQueue) (t : TCB) : PriorityQueue :=
  let r := siftUpGo q.size q.tasks t q.size
  { tasks := Function.update r.1 r.2 t, size := q.size + 1 }

/-- The sift-down loop of C `priority_queue_extract`.  `i` strictly increases
and stays `< size`, so `fuel = size` suffices. -/
def siftDownGo : Nat → (Nat → TCB) → TCB → Nat → Nat → (Nat → TCB) × Nat
  | 0, tasks, _, _, i => (tasks, i)
  | fuel + 1, tasks, last, size, i =>
      if i * 2 + 1 < size then
        let left := i * 2 + 1
        let hp :=
          if left + 1 < size ∧
              ((tasks left).priority < (tasks (left + 1)).priority ∨
                ((tasks (left + 1)).priority = (tasks left).priority ∧
                  (tasks (left + 1)).deadline < (tasks left).deadline))
          then left + 1 else left
        if (tasks hp).priority < last.priority ∨
            (last.priority = (tasks hp).priority ∧ last.deadline ≤ (tasks hp).deadline)
        then (tasks, i)
        else siftDownGo fuel (Function.update tasks i (tasks hp)) last size hp
      else (tasks, i)

/-- C `priority_queue_extract`: returns `none` on an empty queue, otherwise
the root together with the queue after removal and sift-down. -/
def priority_queue_extract (q : PriorityQueue) : Option TCB × PriorityQueue :=
  if q.size = 0 then (none, q)
  else
    let result := q.tasks 0
    let last := q.tasks (q.size - 1)
    let newSize := q.size - 1
    let r := siftDownGo newSize q.tasks last newSize 0
    let ts := if 0 < newSize then Function.update r.1 r.2 last else r.1
    (some result, { tasks := ts, size := newSize })

/-- Replace the element at index `i` of a list by `f` of it (no-op when out of
range); this models an in-place write through a `TCB*` at slot `i`. -/
def modifyAt : List TCB → Nat → (TCB → TCB) → List TCB
  | [], _, _ => []
  | t :: ts, 0, f => f t :: ts
  | t :: ts, n + 1, f => t :: modifyAt ts n f

/-- The C `RTOS_Kernel` struct (`scheduler_running` kept for fidelity). -/
structure Kernel where
  tasks : List TCB
  current_task : Nat
  tick_count : Nat
  total_switches : Nat
  scheduler_running : Bool
deriving DecidableEq, Repr

/-- C `rtos_init`: empty task table, all counters zero. -/
def rtos_init : Kernel where
  tasks := []
  current_task := 0
  tick_count := 0
  total_switches := 0
  scheduler_running := false

/-- The freshly initialized TCB that `rtos_create_task` builds: `Ready`,
zeroed timing statistics, `id` equal to its slot index. -/
def freshTCB (idx priority deadline period : Nat) : TCB where
  id := idx
  priority := priority
  deadline := deadline
  period := period
  state := TaskState.ready
  blocked_tick := 0
  timeout := 0
  run_count := 0

/-- C `rtos_create_task`: fails (table unchanged) at `MAX_TASKS = 32`,
otherwise appends a fresh `Ready` task whose `id` is its slot index. -/
def rtos_create_task (k : Kernel) (priority deadline period : Nat) : Kernel :=
  if 32 ≤ k.tasks.length then k
  else { k with tasks := k.tasks ++ [freshTCB k.tasks.length priority deadline period] }

/-- The ready-queue build of C `schedule_next_task`: all `Ready` tasks are
inserted in slot order into a fresh priority queue. -/
def buildReadyQueue (ts : List TCB) : PriorityQueue :=
  ts.foldl (fun q t => if t.state = TaskState.ready then priority_queue_insert q t else q)
    emptyQueue

/-- C `schedule_next_task`: extract the top of the rebuilt ready queue; if a
task comes out, mark it `Running` and point `current_task` at it. -/
def schedule_next_task (k : Kernel) : Option TCB × Kernel :=
  match (priority_queue_extract (buildReadyQueue k.tasks)).1 with
  | none => (none, k)
  | some t =>
      (some t,
        { k with
          tasks := modifyAt k.tasks t.id (fun u => { u with state := TaskState.running }),
          current_task := t.id })

/-- C `simulate_task_execution`: bump the dispatched task's `run_count` (the
task body itself is an opaque external unit of work). -/
def simulate_task_execution (k : Kernel) (i : Nat) : Kernel :=
  { k with tasks := modifyAt k.tasks i (fun t => { t with run_count := t.run_count + 1 }) }

/-- The unblock pass of C `rtos_tick_handler`: every `Blocked` task with
`tick_count - blocked_tick ≥ timeout` becomes `Ready`. -/
def unblockPass (k : Kernel) : Kernel :=
  { k with
    tasks := k.tasks.map fun t =>
      if t.state = TaskState.blocked ∧ t.timeout ≤ k.tick_count - t.blocked_tick
      then { t with state := TaskState.ready } else t }

/-- The shared tail of C `rtos_tick_handler`'s two dispatching branches:
schedule, and on success count a context switch and execute the new task. -/
def dispatchAndCount (k : Kernel) : Kernel :=
  match schedule_next_task k with
  | (some t, k2) =>
      simulate_task_execution { k2 with total_switches := k2.total_switches + 1 } t.id
  | (none, k2) => k2

/-- The dispatch decision of C `rtos_tick_handler`, taken after the tick
increment and the unblock pass: preempt the running task when a strictly
higher-priority task is ready, otherwise keep executing it; with no running
task, dispatch from the ready set. -/
def tickDecide (k2 : Kernel) : Kernel :=
  match k2.tasks.get? k2.current_task with
  | some current =>
      if current.state = TaskState.running then
        if k2.tasks.any fun t =>
            decide (t.state = TaskState.ready ∧ current.priority < t.priority) then
          dispatchAndCount
            { k2 with
              tasks := modifyAt k2.tasks k2.current_task
                (fun t => { t with state := TaskState.ready }) }
        else simulate_task_execution k2 k2.current_task
      else dispatchAndCount k2
  | none => dispatchAndCount k2

/-- C `rtos_tick_handler`: increment the tick, run the unblock pass, then
make the dispatch decision. -/
def rtos_tick_handler (k : Kernel) : Kernel :=
  tickDecide (unblockPass { k with tick_count := k.tick_count + 1 })

/-- C `rtos_block_task`: if the `current_task` slot is populated (the C code
checks only for `NULL`, not for the `Running` state), mark that task
`Blocked` with `blocked_tick = tick_count` and the given timeout, then
immediately schedule a replacement. -/
def rtos_block_task (k : Kernel) (to_ : Nat) : Kernel :=
  match k.tasks.get? k.current_task with
  | none => k
  | some _ =>
      dispatchAndCount
        { k with
          tasks := modifyAt k.tasks k.current_task
            (fun t =>
              { t with
                state := TaskState.blocked
                blocked_tick := k.tick_count
                timeout := to_ }) }

/-- C `rtos_start`: set the running flag and dispatch the first task; note
that unlike the tick handler it does not touch `total_switches`. -/
def rtos_start (k : Kernel) : Kernel :=
  match schedule_next_task { k with scheduler_running := true } with
  | (some t, k2) => simulate_task_execution k2 t.id
  | (none, k2) => k2

/-- States reachable from the initialized kernel by task creation, ticks and
voluntary blocking. -/
inductive Reachable : Kernel → Prop where
  | init : Reachable rtos_init
  | create (p d per : Nat) {k : Kernel} (h : Reachable k) :
      Reachable (rtos_create_task k p d per)
  | tick {k : Kernel} (h : Reachable k) : Reachable (rtos_tick_handler k)
  | block (to_ : Nat) {k : Kernel} (h : Reachable k) : Reachable (rtos_block_task k to_)

/-! ## Heap ordering (the sift-up break condition is a conjunction)

C `priority_queue_insert` stops sifting up only when the parent has both
priority ≥ and deadline ≤ the new task's.  A parent of strictly higher
priority but later deadline therefore gets displaced below the new task, so
`extract` can return a task while a strictly higher-priority task is still in
the queue — contradicting the function's own description of extracting the
highest-priority task. -/

/-- Priority 5, deadline 10. -/
def tcbP5D10 : TCB where
  id := 0
  priority := 5
  deadline := 10
  period := 0
  state := TaskState.ready
  blocked_tick := 0
  timeout := 0
  run_count := 0

/-- Priority 3, deadline 5. -/
def tcbP3D5 : TCB where
  id := 1
  priority := 3
  deadline := 5
  period := 0
  state := TaskState.ready
  blocked_tick := 0
  timeout := 0
  run_count := 0

/-- The queue after inserting (priority 5, deadline 10) then
(priority 3, deadline 5) into an empty queue. -/
def heapBugQueue : PriorityQueue :=
  priority_queue_insert (priority_queue_insert emptyQueue tcbP5D10) tcbP3D5

/-- C1: evaluation of the code at the failing input.  After inserting a task
of priority 5 (deadline 10) and then one of priority 3 (deadline 5), repeated
`extract_max` yields priority 3 first and priority 5 second — an increasing
priority sequence, violating the claimed non-increasing (priority, then
deadline) extraction order. -/
theorem c1_heap_order_failing_eval :
    ((priority_queue_extract heapBugQueue).1).map TCB.priority = some 3 ∧
      ((priority_queue_extract (priority_queue_extract heapBugQueue).2).1).map TCB.priority
        = some 5 := by
  decide

/-! ## The example scenario (C2) -/

/-- The scheduler after creating A(priority 1, deadline 1000),
B(priority 3, deadline 2000), C(priority 2, deadline 1500), in that order. -/
def kernelABC : Kernel :=
  rtos_create_task
    (rtos_create_task (rtos_create_task rtos_init 1 1000 1000) 3 2000 2000) 2 1500 1500

/-- C2: evaluation of the code on the spec's example scenario.  The first
`tick()` dispatches task C (slot 2, priority 2) — not B (slot 1, priority 3)
as the claim states — because the buggy sift-up places C at the heap root;
`total_switches` is 1.  The subsequent `block_current(100)` then dispatches B
and leaves `total_switches = 2`.  The switch counts match the claim but the
dispatched identities are C then B, not B then C. -/
theorem c2_scenario_eval :
    ((rtos_tick_handler kernelABC).current_task = 2 ∧
      ((rtos_tick_handler kernelABC).tasks.get? 2).map TCB.state = some TaskState.running ∧
      ((rtos_tick_handler kernelABC).tasks.get? 1).map TCB.state = some TaskState.ready ∧
      (rtos_tick_handler kernelABC).total_switches = 1) ∧
    ((rtos_block_task (rtos_tick_handler kernelABC) 100).current_task = 1 ∧
      ((rtos_block_task (rtos_tick_handler kernelABC) 100).tasks.get? 1).map TCB.state
        = some TaskState.running ∧
      ((rtos_block_task (rtos_tick_handler kernelABC) 100).tasks.get? 2).map TCB.state
        = some TaskState.blocked ∧
      (rtos_block_task (rtos_tick_handler kernelABC) 100).total_switches = 2) := by
  decide

/-! ## Sift-up frame lemmas (used for C5 and for the scheduler invariants) -/

/-- Sift-up returns a hole index no larger than the start index and leaves all
slots above the start index untouched. -/
theorem siftUpGo_le_frame (t : TCB) :
    ∀ (fuel i : Nat) (tasks : Nat → TCB),
      (siftUpGo fuel tasks t i).2 ≤ i ∧
        ∀ j, i < j → (siftUpGo fuel tasks t i).1 j = tasks j := by
  intro fuel
  induction fuel with
  | zero =>
      intro i tasks
      cases i with
      | zero => exact ⟨Nat.le_refl _, fun j _ => rfl⟩
      | succ m => exact ⟨Nat.le_refl _, fun j _ => rfl⟩
  | succ fuel ih =>
      intro i tasks
      cases i with
      | zero => exact ⟨Nat.le_refl _, fun j _ => rfl⟩
      | succ m =>
          simp only [siftUpGo]
          split
          · exact ⟨Nat.le_refl _, fun j _ => rfl⟩
          · constructor
            · exact Nat.le_trans (ih (m / 2) _).1 (by omega)
            · intro j hj
              have h1 := (ih (m / 2) (Function.update tasks (m + 1) (tasks (m / 2)))).2 j
                (by omega)
              rw [h1, Function.update_apply]
              split
              · rename_i hje
                omega
              · rfl

/-- Sift-up preserves a property `P` of the live slots `[0, n+1)`, where the
initial hole is at `i ≤ n`: the result has its hole at the returned index and
every other live slot still satisfies `P`. -/
theorem siftUpGo_hole (t : TCB) (P : TCB → Prop) :
    ∀ (fuel i : Nat) (tasks : Nat → TCB) (n : Nat), i ≤ n →
      (∀ j, j < n + 1 → j ≠ i → P (tasks j)) →
      (siftUpGo fuel tasks t i).2 ≤ n ∧
        ∀ j, j < n + 1 → j ≠ (siftUpGo fuel tasks t i).2 →
          P ((siftUpGo fuel tasks t i).1 j) := by
  intro fuel
  induction fuel with
  | zero =>
      intro i tasks n hin hP
      cases i with
      | zero => exact ⟨Nat.zero_le _, hP⟩
      | succ m => exact ⟨hin, hP⟩
  | succ fuel ih =>
      intro i tasks n hin hP
      cases i with
      | zero => exact ⟨Nat.zero_le _, hP⟩
      | succ m =>
          simp only [siftUpGo]
          split
          · exact ⟨hin, hP⟩
          · refine ih (m / 2) _ n (by omega) ?_
            intro j hj hji
            rw [Function.update_apply]
            split
            · exact hP (m / 2) (by omega) (by omega)
            · rename_i hje
              exact hP j hj hje

/-- Insert preserves a property of the live slots: if every slot below `size`
satisfies `P` and the new task does, every slot below the new size does. -/
theorem insert_live (q : PriorityQueue) (t : TCB) (P : TCB → Prop)
    (hq : ∀ j, j < q.size → P (q.tasks j)) (ht : P t) :
    ∀ j, j < q.size + 1 → P ((priority_queue_insert q t).tasks j) := by
  intro j hj
  have h := siftUpGo_hole t P q.size q.size q.tasks q.size (Nat.le_refl _)
    (fun j hj hji => hq j (by omega))
  show P (Function.update (siftUpGo q.size q.tasks t q.size).1
    (siftUpGo q.size q.tasks t q.size).2 t j)
  rw [Function.update_apply]
  split
  · exact ht
  · exact h.2 j hj (by assumption)

/-- A task of priority 5 and deadline 0 (filler for the full-queue input). -/
def tcbFiller : TCB where
  id := 0
  priority := 5
  deadline := 0
  period := 0
  state := TaskState.ready
  blocked_tick := 0
  timeout := 0
  run_count := 0

/-- A task of priority 1 and deadline 0 (the task inserted at capacity). -/
def tcbLow : TCB where
  id := 1
  priority := 1
  deadline := 0
  period := 0
  state := TaskState.ready
  blocked_tick := 0
  timeout := 0
  run_count := 0

/-- A queue already holding `MAX_TASKS = 32` entries. -/
def fullQueue : PriorityQueue where
  tasks := fun _ => tcbFiller
  size := 32

/-- C5 counterexample: at declared capacity (`size = 32 = MAX_TASKS`),
`priority_queue_insert` does not fail and does not leave the heap unchanged —
it grows the queue to 33 entries and writes the new task into slot 32, one
past the declared storage. -/
theorem c5_insert_at_capacity_no_failure :
    (priority_queue_insert fullQueue tcbLow).size = 33 ∧
      (priority_queue_insert fullQueue tcbLow).tasks 32 = tcbLow ∧
      fullQueue.tasks 32 ≠ tcbLow := by
  decide

/-- C5 (amended): `priority_queue_insert` has no failure path at all — it
always grows `size` by exactly one and only writes slots at indices `≤` the
old `size`.  Consequently every access stays inside the declared `MAX_TASKS =
32` slots exactly when the queue is below capacity before the call; invoked at
capacity (`size = 32`) it touches slot 32, outside the declared storage. -/
theorem c5_insert_growth_and_bounds (q : PriorityQueue) (t : TCB) :
    (priority_queue_insert q t).size = q.size + 1 ∧
      (∀ j, q.size < j → (priority_queue_insert q t).tasks j = q.tasks j) ∧
      (q.size < 32 → ∀ j, 32 ≤ j → (priority_queue_insert q t).tasks j = q.tasks j) := by
  refine ⟨rfl, ?_, ?_⟩
  · intro j hj
    show Function.update (siftUpGo q.size q.tasks t q.size).1
      (siftUpGo q.size q.tasks t q.size).2 t j = q.tasks j
    rw [Function.update_apply]
    have hle := (siftUpGo_le_frame t q.size q.size q.tasks).1
    have hfr := (siftUpGo_le_frame t q.size q.size q.tasks).2 j hj
    split
    · omega
    · exact hfr
  · intro hcap j hj
    show Function.update (siftUpGo q.size q.tasks t q.size).1
      (siftUpGo q.size q.tasks t q.size).2 t j = q.tasks j
    rw [Function.update_apply]
    have hle := (siftUpGo_le_frame t q.size q.size q.tasks).1
    have hfr := (siftUpGo_le_frame t q.size q.size q.tasks).2 j (by omega)
    split
    · omega
    · exact hfr

/-- C5 witness: the amended theorem applied to the empty queue — size grows
to 1 and slot 5 (and every slot at index ≥ 32) is untouched. -/
theorem c5_insert_growth_and_bounds_witness :
    (priority_queue_insert emptyQueue tcbLow).size = 1 ∧
      (priority_queue_insert emptyQueue tcbLow).tasks 5 = emptyQueue.tasks 5 ∧
      (priority_queue_insert emptyQueue tcbLow).tasks 32 = emptyQueue.tasks 32 := by
  obtain ⟨h1, h2, h3⟩ := c5_insert_growth_and_bounds emptyQueue tcbLow
  exact ⟨h1, h2 5 (by decide), h3 (by decide) 32 (by decide)⟩

/-! ## Extraction and ready-queue lemmas -/

/-- `extract` yields `none` exactly on the empty queue. -/
theorem extract_none_iff (q : PriorityQueue) :
    (priority_queue_extract q).1 = none ↔ q.size = 0 := by
  unfold priority_queue_extract
  split
  · simp [*]
  · simp [*]

/-- A property of the live slots holds of any extracted task (the extracted
task is the root slot). -/
theorem extract_result_live (q : PriorityQueue) (P : TCB → Prop)
    (hq : ∀ j, j < q.size → P (q.tasks j)) (t : TCB)
    (h : (priority_queue_extract q).1 = some t) : P t := by
  unfold priority_queue_extract at h
  split at h
  · exact absurd h (by simp)
  · have ht : t = q.tasks 0 := by
      simpa using h.symm
    subst ht
    exact hq 0 (by omega)

/-- The rebuilt ready queue has one entry per `Ready` task. -/
theorem buildReadyQueue_size (ts : List TCB) :
    (buildReadyQueue ts).size = ts.countP (fun t => decide (t.state = TaskState.ready)) := by
  suffices h : ∀ (l : List TCB) (q : PriorityQueue),
      (l.foldl (fun q t => if t.state = TaskState.ready then priority_queue_insert q t else q)
        q).size = q.size + l.countP (fun t => decide (t.state = TaskState.ready)) by
    simpa [buildReadyQueue, emptyQueue] using h ts emptyQueue
  intro l
  induction l with
  | nil => simp
  | cons t l ih =>
      intro q
      rw [List.foldl_cons]
      by_cases hts : t.state = TaskState.ready
      · rw [if_pos hts, ih]
        have hsz : (priority_queue_insert q t).size = q.size + 1 := rfl
        rw [hsz]
        simp [List.countP_cons, hts]
        omega
      · rw [if_neg hts, ih]
        simp [List.countP_cons, hts]

/-- Every live slot of the rebuilt ready queue holds a `Ready` member of the
task list. -/
theorem buildReadyQueue_live (ts : List TCB) :
    ∀ j, j < (buildReadyQueue ts).size →
      (buildReadyQueue ts).tasks j ∈ ts ∧
        ((buildReadyQueue ts).tasks j).state = TaskState.ready := by
  suffices h : ∀ (l : List TCB) (q : PriorityQueue) (P : TCB → Prop),
      (∀ j, j < q.size → P (q.tasks j)) → (∀ t ∈ l, t.state = TaskState.ready → P t) →
      ∀ j, j < (l.foldl
          (fun q t => if t.state = TaskState.ready then priority_queue_insert q t else q)
          q).size →
        P ((l.foldl
          (fun q t => if t.state = TaskState.ready then priority_queue_insert q t else q)
          q).tasks j) by
    intro j hj
    refine h ts emptyQueue (fun t => t ∈ ts ∧ t.state = TaskState.ready) ?_ ?_ j hj
    · intro j hj
      exact absurd hj (by simp [emptyQueue])
    · intro t htm hts
      exact ⟨htm, hts⟩
  intro l
  induction l with
  | nil =>
      intro q P hq _ j hj
      exact hq j hj
  | cons t l ih =>
      intro q P hq hl j
      rw [List.foldl_cons]
      by_cases hts : t.state = TaskState.ready
      · rw [if_pos hts]
        intro hj
        refine ih (priority_queue_insert q t) P ?_
          (fun u hu => hl u (List.mem_cons_of_mem t hu)) j hj
        intro j hj
        have hj' : j < q.size + 1 := hj
        exact insert_live q t P hq (hl t (List.mem_cons_self t l) hts) j hj'
      · rw [if_neg hts]
        intro hj
        exact ih q P hq (fun u hu => hl u (List.mem_cons_of_mem t hu)) j hj

/-! ## List-slot lemmas and the schedule characterization -/

theorem modifyAt_length (ts : List TCB) (i : Nat) (f : TCB → TCB) :
    (modifyAt ts i f).length = ts.length := by
  induction ts generalizing i with
  | nil => rfl
  | cons t ts ih =>
      cases i with
      | zero => rfl
      | succ n => simp [modifyAt, ih]

theorem modifyAt_get_eq (ts : List TCB) (i : Nat) (f : TCB → TCB) :
    (modifyAt ts i f).get? i = (ts.get? i).map f := by
  induction ts generalizing i with
  | nil => cases i <;> rfl
  | cons t ts ih =>
      cases i with
      | zero => rfl
      | succ n => simpa [modifyAt] using ih n

theorem modifyAt_get_ne (ts : List TCB) (i j : Nat) (f : TCB → TCB) (h : j ≠ i) :
    (modifyAt ts i f).get? j = ts.get? j := by
  induction ts generalizing i j with
  | nil => cases i <;> rfl
  | cons t ts ih =>
      cases i with
      | zero =>
          cases j with
          | zero => exact absurd rfl h
          | succ m => rfl
      | succ n =>
          cases j with
          | zero => rfl
          | succ m => simpa [modifyAt] using ih n m (fun he => h (by omega))

/-- Task ids equal slot indices (the C invariant that makes a `TCB*` and the
task's `id` interchangeable). -/
def WFids (k : Kernel) : Prop :=
  ∀ i t, k.tasks.get? i = some t → t.id = i

/-- Any `Running` task sits at slot `current_task`. -/
def OneRun (k : Kernel) : Prop :=
  ∀ i t, k.tasks.get? i = some t → t.state = TaskState.running → i = k.current_task

/-- `schedule_next_task` either reports an empty ready set and leaves the
kernel untouched, or dispatches some `Ready` member of the task list, marking
slot `t.id` `Running` and pointing `current_task` at it. -/
theorem schedule_spec (k : Kernel) :
    (schedule_next_task k = (none, k) ∧ ∀ t ∈ k.tasks, t.state ≠ TaskState.ready) ∨
      (∃ t, t ∈ k.tasks ∧ t.state = TaskState.ready ∧
        schedule_next_task k =
          (some t,
            { k with
              tasks := modifyAt k.tasks t.id (fun u => { u with state := TaskState.running }),
              current_task := t.id })) := by
  unfold schedule_next_task
  cases hE : (priority_queue_extract (buildReadyQueue k.tasks)).1 with
  | none =>
      left
      constructor
      · rfl
      · intro t htm hts
        have hz : (buildReadyQueue k.tasks).size = 0 := (extract_none_iff _).1 hE
        rw [buildReadyQueue_size] at hz
        have := List.countP_eq_zero.1 hz t htm
        simp [hts] at this
  | some t =>
      right
      have hP := extract_result_live (buildReadyQueue k.tasks)
        (fun u => u ∈ k.tasks ∧ u.state = TaskState.ready)
        (buildReadyQueue_live k.tasks) t hE
      exact ⟨t, hP.1, hP.2, rfl⟩

/-- If some task of the list is `Ready`, `schedule_next_task` dispatches. -/
theorem schedule_dispatches (k : Kernel) (t0 : TCB) (h0 : t0 ∈ k.tasks)
    (hr : t0.state = TaskState.ready) :
    ∃ t, t ∈ k.tasks ∧ t.state = TaskState.ready ∧
      schedule_next_task k =
        (some t,
          { k with
            tasks := modifyAt k.tasks t.id (fun u => { u with state := TaskState.running }),
            current_task := t.id }) := by
  rcases schedule_spec k with ⟨_, hnone⟩ | h
  · exact absurd hr (hnone t0 h0)
  · exact h

/-! ## The single-running-task invariant (C3) -/

/-- Slot-id well-formedness at the list level. -/
def wfList (ts : List TCB) : Prop := ∀ i t, ts.get? i = some t → t.id = i

theorem wfList_modifyAt (ts : List TCB) (i : Nat) (f : TCB → TCB)
    (hf : ∀ t, (f t).id = t.id) (h : wfList ts) : wfList (modifyAt ts i f) := by
  intro j t hj
  by_cases hji : j = i
  · subst hji
    rw [modifyAt_get_eq] at hj
    cases hg : ts.get? j with
    | none => rw [hg] at hj; exact absurd hj (by simp)
    | some u =>
        rw [hg] at hj
        have : t = f u := by simpa using hj.symm
        subst this
        rw [hf u]
        exact h j u hg
  · rw [modifyAt_get_ne ts i j f hji] at hj
    exact h j t hj

theorem wfList_map (ts : List TCB) (g : TCB → TCB) (hg : ∀ t, (g t).id = t.id)
    (h : wfList ts) : wfList (ts.map g) := by
  intro j t hj
  rw [List.get?_map] at hj
  cases hgj : ts.get? j with
  | none => rw [hgj] at hj; exact absurd hj (by simp)
  | some u =>
      rw [hgj] at hj
      have : t = g u := by simpa using hj.symm
      subst this
      rw [hg u]
      exact h j u hgj

/-- The shape of `dispatchAndCount` when a task `t` gets dispatched. -/
theorem dispatchAndCount_some (k : Kernel) (t : TCB)
    (heq : schedule_next_task k =
      (some t,
        { k with
          tasks := modifyAt k.tasks t.id (fun u => { u with state := TaskState.running }),
          current_task := t.id })) :
    (dispatchAndCount k).tasks =
        modifyAt (modifyAt k.tasks t.id (fun u => { u with state := TaskState.running }))
          t.id (fun u => { u with run_count := u.run_count + 1 }) ∧
      (dispatchAndCount k).current_task = t.id ∧
      (dispatchAndCount k).total_switches = k.total_switches + 1 ∧
      (dispatchAndCount k).tick_count = k.tick_count := by
  unfold dispatchAndCount
  rw [heq]
  exact ⟨rfl, rfl, rfl, rfl⟩

/-- The shape of `dispatchAndCount` when the ready set is empty. -/
theorem dispatchAndCount_none (k : Kernel)
    (heq : schedule_next_task k = (none, k)) : dispatchAndCount k = k := by
  unfold dispatchAndCount
  rw [heq]

/-- After `dispatchAndCount` on a kernel with well-formed ids and no running
task, ids are still well-formed and any running task is at `current_task`. -/
theorem inv_dispatchAndCount (k : Kernel) (hWF : wfList k.tasks)
    (hno : ∀ i t, k.tasks.get? i = some t → t.state ≠ TaskState.running) :
    wfList (dispatchAndCount k).tasks ∧ OneRun (dispatchAndCount k) := by
  rcases schedule_spec k with ⟨heq, _⟩ | ⟨t, htm, hts, heq⟩
  · rw [dispatchAndCount_none k heq]
    exact ⟨hWF, fun i t hi hr => absurd hr (hno i t hi)⟩
  · obtain ⟨htasks, hcur, _, _⟩ := dispatchAndCount_some k t heq
    constructor
    · rw [htasks]
      exact wfList_modifyAt _ t.id _ (fun u => rfl)
        (wfList_modifyAt _ t.id _ (fun u => rfl) hWF)
    · intro j u hj hr
      rw [hcur]
      by_cases hji : j = t.id
      · exact hji
      · rw [htasks, modifyAt_get_ne _ t.id j _ hji, modifyAt_get_ne _ t.id j _ hji] at hj
        exact absurd hr (hno j u hj)

/-- The dispatch decision preserves well-formed ids and the single-runner
invariant. -/
theorem inv_tickDecide (k2 : Kernel) (hWF2 : wfList k2.tasks) (hOne2 : OneRun k2) :
    wfList (tickDecide k2).tasks ∧ OneRun (tickDecide k2) := by
  unfold tickDecide
  split
  · rename_i current hc
    split
    · rename_i hrun
      split
      · rename_i hpre
        refine inv_dispatchAndCount _ ?_ ?_
        · exact wfList_modifyAt _ _ _ (fun u => rfl) hWF2
        · intro j u hj hr
          by_cases hji : j = k2.current_task
          · subst hji
            rw [modifyAt_get_eq, hc] at hj
            have : u = { current with state := TaskState.ready } := by
              simpa using hj.symm
            rw [this] at hr
            exact absurd hr (by simp)
          · rw [modifyAt_get_ne _ _ _ _ hji] at hj
            exact absurd (hOne2 j u hj hr) hji
      · constructor
        · exact wfList_modifyAt _ _ _ (fun u => rfl) hWF2
        · intro j u hj hr
          show j = k2.current_task
          by_cases hji : j = k2.current_task
          · exact hji
          · rw [show (simulate_task_execution k2 k2.current_task).tasks
                = modifyAt k2.tasks k2.current_task
                    (fun t => { t with run_count := t.run_count + 1 }) from rfl,
              modifyAt_get_ne _ _ _ _ hji] at hj
            exact hOne2 j u hj hr
    · rename_i hrun
      refine inv_dispatchAndCount _ hWF2 ?_
      intro j u hj hr
      have hjc := hOne2 j u hj hr
      rw [hjc, hc] at hj
      have : u = current := by simpa using hj.symm
      rw [this] at hr
      exact absurd hr hrun
  · rename_i hc
    refine inv_dispatchAndCount _ hWF2 ?_
    intro j u hj hr
    have hjc := hOne2 j u hj hr
    rw [hjc, hc] at hj
    exact absurd hj (by simp)

/-- The unblock pass preserves both invariants (it only turns `Blocked` tasks
`Ready` and touches nothing else). -/
theorem inv_unblockPass (k : Kernel) (hWF : wfList k.tasks) (hOne : OneRun k) :
    wfList (unblockPass k).tasks ∧ OneRun (unblockPass k) := by
  constructor
  · exact wfList_map _ _ (fun t => by split <;> rfl) hWF
  · intro j u hj hr
    show j = k.current_task
    rw [show (unblockPass k).tasks = k.tasks.map (fun t =>
        if t.state = TaskState.blocked ∧ t.timeout ≤ k.tick_count - t.blocked_tick
        then { t with state := TaskState.ready } else t) from rfl, List.get?_map] at hj
    cases hgj : k.tasks.get? j with
    | none => rw [hgj] at hj; exact absurd hj (by simp)
    | some v =>
        rw [hgj] at hj
        have hv : u = if v.state = TaskState.blocked ∧
            v.timeout ≤ k.tick_count - v.blocked_tick
            then { v with state := TaskState.ready } else v := by
          simpa using hj.symm
        by_cases hvb : v.state = TaskState.blocked ∧
            v.timeout ≤ k.tick_count - v.blocked_tick
        · rw [if_pos hvb] at hv
          rw [hv] at hr
          exact absurd hr (by simp)
        · rw [if_neg hvb] at hv
          subst hv
          exact hOne j u hgj hr

/-- Task creation preserves both invariants. -/
theorem inv_create (k : Kernel) (p d per : Nat) (hWF : wfList k.tasks) (hOne : OneRun k) :
    wfList (rtos_create_task k p d per).tasks ∧ OneRun (rtos_create_task k p d per) := by
  unfold rtos_create_task
  split
  · exact ⟨hWF, hOne⟩
  · have hget : ∀ j t, (k.tasks ++ [freshTCB k.tasks.length p d per]).get? j = some t →
        k.tasks.get? j = some t ∨ (j = k.tasks.length ∧ t = freshTCB k.tasks.length p d per) := by
      intro j t hj
      by_cases hjl : j < k.tasks.length
      · rw [List.get?_append hjl] at hj
        exact Or.inl hj
      · rw [List.get?_append_right (by omega)] at hj
        cases hd : j - k.tasks.length with
        | zero =>
            rw [hd] at hj
            have ht : t = freshTCB k.tasks.length p d per := by simpa using hj.symm
            exact Or.inr ⟨by omega, ht⟩
        | succ m =>
            rw [hd] at hj
            exact absurd hj (by simp)
    constructor
    · intro j t hj
      rcases hget j t hj with h | ⟨hj1, ht⟩
      · exact hWF j t h
      · rw [ht, hj1]
        rfl
    · intro j t hj hr
      rcases hget j t hj with h | ⟨hj1, ht⟩
      · exact hOne j t h hr
      · rw [ht] at hr
        exact absurd hr (by simp [freshTCB])

/-- Voluntary blocking preserves both invariants. -/
theorem inv_block (k : Kernel) (to_ : Nat) (hWF : wfList k.tasks) (hOne : OneRun k) :
    wfList (rtos_block_task k to_).tasks ∧ OneRun (rtos_block_task k to_) := by
  cases hc : k.tasks.get? k.current_task with
  | none =>
      have heq : rtos_block_task k to_ = k := by
        unfold rtos_block_task
        rw [hc]
      rw [heq]
      exact ⟨hWF, hOne⟩
  | some c =>
      have heq : rtos_block_task k to_ =
          dispatchAndCount
            { k with
              tasks := modifyAt k.tasks k.current_task
                (fun t =>
                  { t with
                    state := TaskState.blocked
                    blocked_tick := k.tick_count
                    timeout := to_ }) } := by
        unfold rtos_block_task
        rw [hc]
      rw [heq]
      refine inv_dispatchAndCount _ ?_ ?_
      · exact wfList_modifyAt _ _ _ (fun u => rfl) hWF
      · intro j u hj hr
        dsimp only at hj
        by_cases hji : j = k.current_task
        · subst hji
          rw [modifyAt_get_eq, hc] at hj
          have hu : u = { c with
              state := TaskState.blocked
              blocked_tick := k.tick_count
              timeout := to_ } := by
            simpa using hj.symm
          rw [hu] at hr
          exact absurd hr (by simp)
        · rw [modifyAt_get_ne _ _ _ _ hji] at hj
          exact absurd (hOne j u hj hr) hji

/-- Every reachable kernel state has well-formed ids and at most the task at
`current_task` running. -/
theorem reachable_inv (k : Kernel) (h : Reachable k) : wfList k.tasks ∧ OneRun k := by
  induction h with
  | init =>
      constructor
      · intro i t hi
        cases i <;> exact absurd hi (by simp [rtos_init])
      · intro i t hi
        cases i <;> exact absurd hi (by simp [rtos_init])
  | create p d per h ih => exact inv_create _ p d per ih.1 ih.2
  | tick h ih =>
      rename_i k0
      have h1 := inv_unblockPass { k0 with tick_count := k0.tick_count + 1 } ih.1 ih.2
      exact inv_tickDecide _ h1.1 h1.2
  | block to_ h ih => exact inv_block _ to_ ih.1 ih.2

/-- C3: in every scheduler state reachable from the initialized state by any
sequence of `create_task`, `tick()` and `block_current(timeout)` calls, at
most one task has `state == Running`: any two slots holding `Running` tasks
coincide. -/
theorem c3_at_most_one_running (k : Kernel) (h : Reachable k) :
    ∀ i j ti tj, k.tasks.get? i = some ti → k.tasks.get? j = some tj →
      ti.state = TaskState.running → tj.state = TaskState.running → i = j := by
  intro i j ti tj hi hj hri hrj
  have hOne := (reachable_inv k h).2
  rw [hOne i ti hi hri, hOne j tj hj hrj]

/-- The reachable state used to witness C3: two tasks created, one tick. -/
def c3KernelW : Kernel :=
  rtos_tick_handler (rtos_create_task (rtos_create_task rtos_init 1 0 0) 2 0 0)

/-- The running task of `c3KernelW`. -/
def c3RunW : TCB where
  id := 1
  priority := 2
  deadline := 0
  period := 0
  state := TaskState.running
  blocked_tick := 0
  timeout := 0
  run_count := 1

/-- C3 witness: the theorem applied to a concrete reachable state with a
concrete running task at slot 1. -/
theorem c3_at_most_one_running_witness :
    c3KernelW.tasks.get? 1 = some c3RunW ∧ c3RunW.state = TaskState.running ∧ 1 = 1 := by
  refine ⟨by decide, by decide, ?_⟩
  exact c3_at_most_one_running c3KernelW
    (Reachable.tick (Reachable.create 2 0 0 (Reachable.create 1 0 0 Reachable.init)))
    1 1 c3RunW c3RunW (by decide) (by decide) (by decide) (by decide)

/-! ## `block_current` (C4): the C code checks only for a populated slot, not
for a `Running` task, and returns no error in any case. -/

/-- One freshly created task, nothing ever dispatched: no task is running. -/
def c4ReadyKernel : Kernel := rtos_create_task rtos_init 1 0 0

/-- C4 counterexample: in a state where no task is `Running` (one freshly
created `Ready` task), `block_current(5)` neither fails nor leaves the state
unchanged — it blocks the `Ready` task at slot `current_task`. -/
theorem c4_block_without_running_cex :
    (∀ t ∈ c4ReadyKernel.tasks, t.state ≠ TaskState.running) ∧
      ((rtos_block_task c4ReadyKernel 5).tasks.get? 0).map TCB.state
        = some TaskState.blocked ∧
      rtos_block_task c4ReadyKernel 5 ≠ c4ReadyKernel := by
  decide

/-- C4 (amended): `block_current(timeout)` returns no error.  It is a no-op
exactly when the `current_task` slot is empty; whenever that slot holds a
task — `Running` or not — the task is marked `Blocked` with
`blocked_since = tick_count` and the given timeout (and a replacement is
dispatched from the ready set). -/
theorem c4_block_behavior (k : Kernel) (to_ : Nat) :
    (k.tasks.get? k.current_task = none → rtos_block_task k to_ = k) ∧
      (∀ c, k.tasks.get? k.current_task = some c → wfList k.tasks →
        ∃ u, (rtos_block_task k to_).tasks.get? k.current_task = some u ∧
          u.state = TaskState.blocked ∧ u.blocked_tick = k.tick_count ∧
          u.timeout = to_) := by
  constructor
  · intro hc
    unfold rtos_block_task
    rw [hc]
  · intro c hc hWF
    have heq : rtos_block_task k to_ =
        dispatchAndCount
          { k with
            tasks := modifyAt k.tasks k.current_task
              (fun t =>
                { t with
                  state := TaskState.blocked
                  blocked_tick := k.tick_count
                  timeout := to_ }) } := by
      unfold rtos_block_task
      rw [hc]
    set k1 : Kernel :=
      { k with
        tasks := modifyAt k.tasks k.current_task
          (fun t =>
            { t with
              state := TaskState.blocked
              blocked_tick := k.tick_count
              timeout := to_ }) } with hk1
    have hk1get : k1.tasks.get? k.current_task =
        some { c with
          state := TaskState.blocked
          blocked_tick := k.tick_count
          timeout := to_ } := by
      rw [hk1]
      dsimp only
      rw [modifyAt_get_eq, hc]
      rfl
    have hWF1 : wfList k1.tasks := by
      rw [hk1]
      exact wfList_modifyAt _ _ _ (fun u => rfl) hWF
    rw [heq]
    rcases schedule_spec k1 with ⟨hs, _⟩ | ⟨t, htm, hts, hs⟩
    · rw [dispatchAndCount_none k1 hs]
      exact ⟨_, hk1get, rfl, rfl, rfl⟩
    · obtain ⟨htasks, _, _, _⟩ := dispatchAndCount_some k1 t hs
      have hti : t.id ≠ k.current_task := by
        intro hid
        obtain ⟨i, hgi⟩ := List.get?_of_mem htm
        have hidi : t.id = i := hWF1 i t hgi
        have hik : i = k.current_task := by rw [← hidi, hid]
        rw [hik, hk1get] at hgi
        have ht : t = { c with
            state := TaskState.blocked
            blocked_tick := k.tick_count
            timeout := to_ } := (Option.some.inj hgi).symm
        rw [ht] at hts
        exact absurd hts (by simp)
      rw [htasks]
      rw [modifyAt_get_ne _ _ _ _ (fun h => hti h.symm),
        modifyAt_get_ne _ _ _ _ (fun h => hti h.symm)]
      exact ⟨_, hk1get, rfl, rfl, rfl⟩

/-- A kernel with the single task at slot 0 running (one create, one tick). -/
def c4RunKernel : Kernel := rtos_tick_handler (rtos_create_task rtos_init 1 0 0)

/-- The running task of `c4RunKernel`. -/
def c4RunTCB : TCB where
  id := 0
  priority := 1
  deadline := 0
  period := 0
  state := TaskState.running
  blocked_tick := 0
  timeout := 0
  run_count := 1

/-- C4 witness: the amended theorem applied to concrete states — the no-op
case on the empty initial kernel and the blocking case on a kernel with a
running task. -/
theorem c4_block_behavior_witness :
    rtos_block_task rtos_init 3 = rtos_init ∧
      (c4RunKernel.tasks.get? c4RunKernel.current_task = some c4RunTCB ∧
        ∃ u, (rtos_block_task c4RunKernel 7).tasks.get? c4RunKernel.current_task = some u ∧
          u.state = TaskState.blocked ∧ u.blocked_tick = c4RunKernel.tick_count ∧
          u.timeout = 7) := by
  have hwf : wfList c4RunKernel.tasks := by
    intro i t h
    cases i with
    | zero =>
        have h0 : some c4RunTCB = some t := h
        have he := Option.some.inj h0
        rw [← he]
        rfl
    | succ n => exact Option.noConfusion h
  refine ⟨(c4_block_behavior rtos_init 3).1 (by decide), by decide, ?_⟩
  exact (c4_block_behavior c4RunKernel 7).2 c4RunTCB (by decide) hwf

/-! ## Preemption triggering (C7): the unblock pass runs before the
preemption check, so a task woken this very tick can preempt even though no
task was `Ready` when `tick()` was called. -/

/-- The state of the tick handler after the tick increment and the unblock
pass, on which the preemption decision is taken. -/
def postUnblock (k : Kernel) : Kernel :=
  unblockPass { k with tick_count := k.tick_count + 1 }

/-- A priority-1 task, running. -/
def c7RunTCB : TCB where
  id := 0
  priority := 1
  deadline := 0
  period := 0
  state := TaskState.running
  blocked_tick := 0
  timeout := 0
  run_count := 0

/-- A priority-5 task, blocked with timeout 0 (wakes at the next tick). -/
def c7BlockedTCB : TCB where
  id := 1
  priority := 5
  deadline := 0
  period := 0
  state := TaskState.blocked
  blocked_tick := 0
  timeout := 0
  run_count := 0

/-- Priority-1 task running, priority-5 task blocked and about to wake; no
task is `Ready`. -/
def c7Kernel : Kernel where
  tasks := [c7RunTCB, c7BlockedTCB]
  current_task := 0
  tick_count := 0
  total_switches := 0
  scheduler_running := true

/-- C7 counterexample: in `c7Kernel` every `Ready` task (there are none) has
priority ≤ the running task's, yet `tick()` demotes the running task to
`Ready`, makes the freshly woken priority-5 task `Running`, and increments
`total_switches` — because the unblock pass precedes the preemption check. -/
theorem c7_equal_or_lower_ready_still_preempted :
    (∀ t ∈ c7Kernel.tasks, t.state = TaskState.ready → t.priority ≤ 1) ∧
      (c7Kernel.tasks.get? 0).map TCB.state = some TaskState.running ∧
      ((rtos_tick_handler c7Kernel).tasks.get? 0).map TCB.state = some TaskState.ready ∧
      ((rtos_tick_handler c7Kernel).tasks.get? 1).map TCB.state = some TaskState.running ∧
      (rtos_tick_handler c7Kernel).total_switches = c7Kernel.total_switches + 1 := by
  decide

/-- C7 (amended): if a task is `Running` and, after the tick's unblock pass,
every `Ready` task has priority ≤ the running task's (in particular equal
priority), then `tick()` does not preempt: the whole tick is just the unblock
pass plus one execution of the running task — `total_switches` and
`current_task` are unchanged and the task stays `Running` with its
`run_count` bumped. -/
theorem c7_no_preempt_when_no_higher_ready (k : Kernel) (c : TCB)
    (hc : (postUnblock k).tasks.get? k.current_task = some c)
    (hrun : c.state = TaskState.running)
    (hmax : ∀ t ∈ (postUnblock k).tasks, t.state = TaskState.ready →
      t.priority ≤ c.priority) :
    rtos_tick_handler k = simulate_task_execution (postUnblock k) k.current_task ∧
      (rtos_tick_handler k).total_switches = k.total_switches ∧
      (rtos_tick_handler k).current_task = k.current_task ∧
      (rtos_tick_handler k).tasks.get? k.current_task
        = some { c with run_count := c.run_count + 1 } ∧
      ({ c with run_count := c.run_count + 1 } : TCB).state = TaskState.running := by
  have hc' : (postUnblock k).tasks.get? (postUnblock k).current_task = some c := hc
  have hpre : ¬((postUnblock k).tasks.any fun t =>
      decide (t.state = TaskState.ready ∧ c.priority < t.priority)) = true := by
    intro hx
    obtain ⟨t, htm, hp⟩ := List.any_eq_true.1 hx
    have h1 := of_decide_eq_true hp
    have h2 := hmax t htm h1.1
    have h3 := h1.2
    omega
  have hmain : rtos_tick_handler k
      = simulate_task_execution (postUnblock k) k.current_task := by
    show tickDecide (postUnblock k) = _
    unfold tickDecide
    split
    · rename_i current hcm
      have h2 : some current = some c := by
        rw [← hcm]
        exact hc'
      have hcc := Option.some.inj h2
      subst hcc
      rw [if_pos hrun, if_neg hpre]
      rfl
    · rename_i hcm
      rw [hcm] at hc'
      exact Option.noConfusion hc'
  refine ⟨hmain, by rw [hmain]; rfl, by rw [hmain]; rfl, ?_, hrun⟩
  rw [hmain]
  have ht : (simulate_task_execution (postUnblock k) k.current_task).tasks
      = modifyAt (postUnblock k).tasks k.current_task
          (fun t => { t with run_count := t.run_count + 1 }) := rfl
  rw [ht, modifyAt_get_eq, hc]
  rfl

/-- A single running task, nothing else: the no-preemption hypotheses hold. -/
def c7QuietKernel : Kernel where
  tasks := [c7RunTCB]
  current_task := 0
  tick_count := 3
  total_switches := 2
  scheduler_running := true

/-- C7 witness: the amended theorem applied to `c7QuietKernel` — the tick
leaves `total_switches` at 2 and the task `Running`. -/
theorem c7_no_preempt_witness :
    (postUnblock c7QuietKernel).tasks.get? c7QuietKernel.current_task = some c7RunTCB ∧
      c7RunTCB.state = TaskState.running ∧
      (rtos_tick_handler c7QuietKernel).total_switches = c7QuietKernel.total_switches ∧
      (rtos_tick_handler c7QuietKernel).tasks.get? c7QuietKernel.current_task
        = some { c7RunTCB with run_count := c7RunTCB.run_count + 1 } := by
  have h := c7_no_preempt_when_no_higher_ready c7QuietKernel c7RunTCB
    (by decide) (by decide) (by decide)
  exact ⟨by decide, by decide, h.2.1, h.2.2.2.1⟩

/-! ## Timeout exactness (C6) -/

/-- `dispatchAndCount` preserves well-formed ids (no single-runner hypothesis
needed). -/
theorem wfList_dispatchAndCount (k : Kernel) (hWF : wfList k.tasks) :
    wfList (dispatchAndCount k).tasks := by
  rcases schedule_spec k with ⟨hs, _⟩ | ⟨t, htm, hts, hs⟩
  · rw [dispatchAndCount_none k hs]
    exact hWF
  · rw [(dispatchAndCount_some k t hs).1]
    exact wfList_modifyAt _ t.id _ (fun u => rfl)
      (wfList_modifyAt _ t.id _ (fun u => rfl) hWF)

/-- A slot holding a non-`Ready` task is untouched by `dispatchAndCount`. -/
theorem dispatch_frame_nonready (k : Kernel) (hWF : wfList k.tasks) (i : Nat) (t : TCB)
    (hget : k.tasks.get? i = some t) (hnr : t.state ≠ TaskState.ready) :
    (dispatchAndCount k).tasks.get? i = some t ∧
      (dispatchAndCount k).tick_count = k.tick_count := by
  rcases schedule_spec k with ⟨hs, _⟩ | ⟨u, hum, hus, hs⟩
  · rw [dispatchAndCount_none k hs]
    exact ⟨hget, rfl⟩
  · obtain ⟨htasks, _, _, htc⟩ := dispatchAndCount_some k u hs
    have hui : u.id ≠ i := by
      intro hid
      obtain ⟨j, hgj⟩ := List.get?_of_mem hum
      have hidj : u.id = j := hWF j u hgj
      rw [hidj] at hid
      rw [hid, hget] at hgj
      have := Option.some.inj hgj
      rw [this] at hnr
      exact hnr hus
    rw [htasks, modifyAt_get_ne _ _ _ _ (fun h => hui h.symm),
      modifyAt_get_ne _ _ _ _ (fun h => hui h.symm)]
    exact ⟨hget, htc⟩

/-- The dispatch decision preserves well-formed ids. -/
theorem wfList_tickDecide (k2 : Kernel) (hWF2 : wfList k2.tasks) :
    wfList (tickDecide k2).tasks := by
  unfold tickDecide
  split
  · split
    · split
      · exact wfList_dispatchAndCount _ (wfList_modifyAt _ _ _ (fun u => rfl) hWF2)
      · exact wfList_modifyAt _ _ _ (fun u => rfl) hWF2
    · exact wfList_dispatchAndCount _ hWF2
  · exact wfList_dispatchAndCount _ hWF2

/-- The dispatch decision never changes `tick_count`. -/
theorem tickDecide_tick_count (k2 : Kernel) :
    (tickDecide k2).tick_count = k2.tick_count := by
  have hd : ∀ k : Kernel, (dispatchAndCount k).tick_count = k.tick_count := by
    intro k
    rcases schedule_spec k with ⟨hs, _⟩ | ⟨u, _, _, hs⟩
    · rw [dispatchAndCount_none k hs]
    · exact (dispatchAndCount_some k u hs).2.2.2
  unfold tickDecide
  split
  · split
    · split
      · exact hd _
      · rfl
    · exact hd _
  · exact hd _

/-- A tick advances `tick_count` by exactly one. -/
theorem tick_count_tick (k : Kernel) :
    (rtos_tick_handler k).tick_count = k.tick_count + 1 :=
  tickDecide_tick_count (postUnblock k)

/-- The tick handler preserves well-formed ids. -/
theorem wfList_tick (k : Kernel) (hWF : wfList k.tasks) :
    wfList (rtos_tick_handler k).tasks := by
  refine wfList_tickDecide (postUnblock k) ?_
  exact wfList_map _ _ (fun t => by split <;> rfl) hWF

/-- A blocked task whose timeout has not yet expired survives the unblock
pass untouched. -/
theorem postUnblock_stay_blocked (k : Kernel) (i : Nat) (t : TCB)
    (hget : k.tasks.get? i = some t)
    (hcond : k.tick_count + 1 - t.blocked_tick < t.timeout) :
    (postUnblock k).tasks.get? i = some t := by
  show (k.tasks.map _).get? i = some t
  rw [List.get?_map, hget]
  have hio : ¬(t.state = TaskState.blocked ∧
      t.timeout ≤ k.tick_count + 1 - t.blocked_tick) := by
    intro hx
    omega
  show some (if t.state = TaskState.blocked ∧ t.timeout ≤ k.tick_count + 1 - t.blocked_tick
      then { t with state := TaskState.ready } else t) = some t
  rw [if_neg hio]

/-- A blocked task whose timeout has expired is set `Ready` by the unblock
pass. -/
theorem postUnblock_wakes (k : Kernel) (i : Nat) (t : TCB)
    (hget : k.tasks.get? i = some t) (hb : t.state = TaskState.blocked)
    (hcond : t.timeout ≤ k.tick_count + 1 - t.blocked_tick) :
    (postUnblock k).tasks.get? i = some { t with state := TaskState.ready } := by
  show (k.tasks.map _).get? i = some _
  rw [List.get?_map, hget]
  show some (if t.state = TaskState.blocked ∧ t.timeout ≤ k.tick_count + 1 - t.blocked_tick
      then { t with state := TaskState.ready } else t) = some _
  rw [if_pos ⟨hb, hcond⟩]

/-- A blocked task whose timeout has not yet expired is untouched by a whole
tick. -/
theorem tick_frame_blocked (k : Kernel) (i : Nat) (t : TCB) (hWF : wfList k.tasks)
    (hget : k.tasks.get? i = some t) (hb : t.state = TaskState.blocked)
    (hcond : k.tick_count + 1 - t.blocked_tick < t.timeout) :
    (rtos_tick_handler k).tasks.get? i = some t := by
  have hget2 : (postUnblock k).tasks.get? i = some t :=
    postUnblock_stay_blocked k i t hget hcond
  have hWF2 : wfList (postUnblock k).tasks :=
    wfList_map _ _ (fun t => by split <;> rfl) hWF
  have hnr : t.state ≠ TaskState.ready := by rw [hb]; exact fun h => TaskState.noConfusion h
  show (tickDecide (postUnblock k)).tasks.get? i = some t
  unfold tickDecide
  split
  · rename_i current hcm
    split
    · rename_i hrun
      have hic : i ≠ (postUnblock k).current_task := by
        intro hix
        rw [hix, hcm] at hget2
        have hct := Option.some.inj hget2
        rw [hct, hb] at hrun
        exact TaskState.noConfusion hrun
      split
      · refine (dispatch_frame_nonready _ ?_ i t ?_ hnr).1
        · exact wfList_modifyAt _ _ _ (fun u => rfl) hWF2
        · show (modifyAt (postUnblock k).tasks (postUnblock k).current_task
              (fun t => { t with state := TaskState.ready })).get? i = some t
          rw [modifyAt_get_ne _ _ _ _ hic]
          exact hget2
      · show (modifyAt (postUnblock k).tasks (postUnblock k).current_task
            (fun t => { t with run_count := t.run_count + 1 })).get? i = some t
        rw [modifyAt_get_ne _ _ _ _ hic]
        exact hget2
    · exact (dispatch_frame_nonready _ hWF2 i t hget2 hnr).1
  · exact (dispatch_frame_nonready _ hWF2 i t hget2 hnr).1

/-- C6: timeout exactness.  If task `t` at slot `i` becomes `Blocked` at tick
`T = s.tick_count` (so `blocked_since = T`) with timeout `K`, then under
subsequent `tick()` calls it is still `Blocked`, unchanged, after every
`n < max K 1` ticks, and the unblock pass of the next tick — the first whose
`tick_count` satisfies `tick_count - T ≥ K`, namely `tick_count = T + K` for
`K ≥ 1` and `T + 1` (the very next evaluation) for `K = 0` — sets it
`Ready`. -/
theorem c6_timeout_exact (s : Kernel) (i : Nat) (t : TCB) (K : Nat)
    (hWF : wfList s.tasks) (hget : s.tasks.get? i = some t)
    (hb : t.state = TaskState.blocked) (hbt : t.blocked_tick = s.tick_count)
    (hto : t.timeout = K) :
    (∀ n, n < max K 1 →
      (rtos_tick_handler^[n] s).tasks.get? i = some t ∧
        (rtos_tick_handler^[n] s).tick_count = s.tick_count + n) ∧
      (postUnblock (rtos_tick_handler^[max K 1 - 1] s)).tasks.get? i
          = some { t with state := TaskState.ready } ∧
      (postUnblock (rtos_tick_handler^[max K 1 - 1] s)).tick_count
          = s.tick_count + max K 1 := by
  have key : ∀ n, n < max K 1 →
      (rtos_tick_handler^[n] s).tasks.get? i = some t ∧
        (rtos_tick_handler^[n] s).tick_count = s.tick_count + n ∧
        wfList (rtos_tick_handler^[n] s).tasks := by
    intro n
    induction n with
    | zero =>
        intro _
        exact ⟨hget, by simp, hWF⟩
    | succ n ih =>
        intro hn
        have hn' : n < max K 1 := by omega
        obtain ⟨ih1, ih2, ih3⟩ := ih hn'
        rw [Function.iterate_succ_apply']
        have hcond : (rtos_tick_handler^[n] s).tick_count + 1 - t.blocked_tick
            < t.timeout := by
          rw [ih2, hbt, hto]
          omega
        refine ⟨tick_frame_blocked _ i t ih3 ih1 hb hcond, ?_, wfList_tick _ ih3⟩
        rw [tick_count_tick, ih2]
        omega
  have hm : max K 1 - 1 < max K 1 := by omega
  obtain ⟨h1, h2, _⟩ := key (max K 1 - 1) hm
  refine ⟨fun n hn => ⟨(key n hn).1, (key n hn).2.1⟩, ?_, ?_⟩
  · refine postUnblock_wakes _ i t h1 hb ?_
    rw [h2, hbt, hto]
    omega
  · show (rtos_tick_handler^[max K 1 - 1] s).tick_count + 1 = s.tick_count + max K 1
    rw [h2]
    omega

/-- A priority-2 task blocked at tick 4 with timeout 2, alone in the table. -/
def c6BlockedTCB : TCB where
  id := 0
  priority := 2
  deadline := 0
  period := 0
  state := TaskState.blocked
  blocked_tick := 4
  timeout := 2
  run_count := 1

/-- A kernel at tick 4 whose only task just blocked with timeout 2. -/
def c6Kernel : Kernel where
  tasks := [c6BlockedTCB]
  current_task := 0
  tick_count := 4
  total_switches := 1
  scheduler_running := true

/-- C6 witness: the theorem applied to `c6Kernel` (T = 4, K = 2) — after one
tick the task is still `Blocked` unchanged, and the unblock pass of the
second tick (tick_count = 6 = T + K) turns it `Ready`. -/
theorem c6_timeout_exact_witness :
    c6Kernel.tasks.get? 0 = some c6BlockedTCB ∧
      c6BlockedTCB.state = TaskState.blocked ∧
      (rtos_tick_handler^[1] c6Kernel).tasks.get? 0 = some c6BlockedTCB ∧
      (postUnblock (rtos_tick_handler^[1] c6Kernel)).tasks.get? 0
        = some { c6BlockedTCB with state := TaskState.ready } ∧
      (postUnblock (rtos_tick_handler^[1] c6Kernel)).tick_count = 6 := by
  have hwf : wfList c6Kernel.tasks := by
    intro i t h
    cases i with
    | zero =>
        have h0 : some c6BlockedTCB = some t := h
        have he := Option.some.inj h0
        rw [← he]
        rfl
    | succ n => exact Option.noConfusion h
  have h := c6_timeout_exact c6Kernel 0 c6BlockedTCB 2 hwf (by decide) (by decide)
    (by decide) (by decide)
  refine ⟨by decide, by decide, (h.1 1 (by decide)).1, h.2.1, h.2.2⟩

/-! ## Context-switch accounting (C8) -/

/-- `dispatchAndCount` increments `total_switches` by one exactly when the
ready set is non-empty. -/
theorem dispatch_switch_some (k : Kernel)
    (h : ∃ t ∈ k.tasks, t.state = TaskState.ready) :
    (dispatchAndCount k).total_switches = k.total_switches + 1 := by
  rcases schedule_spec k with ⟨hs, hnone⟩ | ⟨t, htm, hts, hs⟩
  · obtain ⟨t, htm, hts⟩ := h
    exact absurd hts (hnone t htm)
  · exact (dispatchAndCount_some k t hs).2.2.1

/-- `dispatchAndCount` leaves `total_switches` unchanged exactly when the
ready set is empty. -/
theorem dispatch_switch_none (k : Kernel)
    (h : ∀ t ∈ k.tasks, t.state ≠ TaskState.ready) :
    (dispatchAndCount k).total_switches = k.total_switches := by
  rcases schedule_spec k with ⟨hs, _⟩ | ⟨t, htm, hts, hs⟩
  · rw [dispatchAndCount_none k hs]
  · exact absurd hts (h t htm)

/-- The condition under which a `tick()` performs a dispatch, read off the
post-unblock state: with a running current task, some `Ready` task of
strictly higher priority exists (preemption); otherwise some `Ready` task
exists at all. -/
def TickDispatchCond (k : Kernel) : Prop :=
  match (postUnblock k).tasks.get? (postUnblock k).current_task with
  | some current =>
      if current.state = TaskState.running
      then ∃ t ∈ (postUnblock k).tasks,
        t.state = TaskState.ready ∧ current.priority < t.priority
      else ∃ t ∈ (postUnblock k).tasks, t.state = TaskState.ready
  | none => ∃ t ∈ (postUnblock k).tasks, t.state = TaskState.ready

/-- The condition under which `block_current` performs a dispatch: the
`current_task` slot is populated and, after it is blocked, some `Ready` task
remains. -/
def BlockDispatchCond (k : Kernel) (to_ : Nat) : Prop :=
  match k.tasks.get? k.current_task with
  | none => False
  | some _ =>
      ∃ t ∈ modifyAt k.tasks k.current_task
        (fun t =>
          { t with
            state := TaskState.blocked
            blocked_tick := k.tick_count
            timeout := to_ }), t.state = TaskState.ready

/-- C8 (amended): `total_switches` counts the dispatches performed by the
tick handler and by `block_current` — each such dispatch increments it by
exactly one, whether or not the newly installed task differs from the
previously current one — while the initial dispatch performed by
`rtos_start` does not increment it. -/
theorem c8_switch_accounting (k : Kernel) (to_ : Nat) :
    (TickDispatchCond k →
        (rtos_tick_handler k).total_switches = k.total_switches + 1) ∧
      (¬TickDispatchCond k →
        (rtos_tick_handler k).total_switches = k.total_switches) ∧
      (BlockDispatchCond k to_ →
        (rtos_block_task k to_).total_switches = k.total_switches + 1) ∧
      (¬BlockDispatchCond k to_ →
        (rtos_block_task k to_).total_switches = k.total_switches) ∧
      (rtos_start k).total_switches = k.total_switches := by
  refine ⟨?_, ?_, ?_, ?_, ?_⟩
  · intro htd
    show (tickDecide (postUnblock k)).total_switches = k.total_switches + 1
    unfold TickDispatchCond at htd
    unfold tickDecide
    split
    · rename_i current hcm
      rw [hcm] at htd
      split
      · rename_i hrun
        have htd' : ∃ t ∈ (postUnblock k).tasks,
            t.state = TaskState.ready ∧ current.priority < t.priority := by
          have hx : (if current.state = TaskState.running
              then ∃ t ∈ (postUnblock k).tasks,
                t.state = TaskState.ready ∧ current.priority < t.priority
              else ∃ t ∈ (postUnblock k).tasks, t.state = TaskState.ready) := htd
          rwa [if_pos hrun] at hx
        split
        · obtain ⟨t, htm, hts, hgt⟩ := htd'
          obtain ⟨j, hgj⟩ := List.get?_of_mem htm
          have hji : j ≠ (postUnblock k).current_task := by
            intro hx
            rw [hx, hcm] at hgj
            have hct := Option.some.inj hgj
            rw [hct, hts] at hrun
            exact TaskState.noConfusion hrun
          have hgj3 : (modifyAt (postUnblock k).tasks (postUnblock k).current_task
              (fun t => { t with state := TaskState.ready })).get? j = some t := by
            rw [modifyAt_get_ne _ _ _ _ hji]
            exact hgj
          exact dispatch_switch_some _ ⟨t, List.get?_mem hgj3, hts⟩
        · rename_i hpre
          exfalso
          obtain ⟨t, htm, hts, hgt⟩ := htd'
          exact hpre (List.any_eq_true.2 ⟨t, htm, decide_eq_true ⟨hts, hgt⟩⟩)
      · rename_i hrun
        have hx : (if current.state = TaskState.running
            then ∃ t ∈ (postUnblock k).tasks,
              t.state = TaskState.ready ∧ current.priority < t.priority
            else ∃ t ∈ (postUnblock k).tasks, t.state = TaskState.ready) := htd
        rw [if_neg hrun] at hx
        exact dispatch_switch_some _ hx
    · rename_i hcm
      rw [hcm] at htd
      have hx : ∃ t ∈ (postUnblock k).tasks, t.state = TaskState.ready := htd
      exact dispatch_switch_some _ hx
  · intro htd
    show (tickDecide (postUnblock k)).total_switches = k.total_switches
    unfold TickDispatchCond at htd
    unfold tickDecide
    split
    · rename_i current hcm
      rw [hcm] at htd
      split
      · rename_i hrun
        have hnp : ¬(if current.state = TaskState.running
            then ∃ t ∈ (postUnblock k).tasks,
              t.state = TaskState.ready ∧ current.priority < t.priority
            else ∃ t ∈ (postUnblock k).tasks, t.state = TaskState.ready) := htd
        rw [if_pos hrun] at hnp
        split
        · rename_i hpre
          exfalso
          obtain ⟨t, htm, hp⟩ := List.any_eq_true.1 hpre
          have h1 := of_decide_eq_true hp
          exact hnp ⟨t, htm, h1.1, h1.2⟩
        · rfl
      · rename_i hrun
        have hnp : ¬(if current.state = TaskState.running
            then ∃ t ∈ (postUnblock k).tasks,
              t.state = TaskState.ready ∧ current.priority < t.priority
            else ∃ t ∈ (postUnblock k).tasks, t.state = TaskState.ready) := htd
        rw [if_neg hrun] at hnp
        exact dispatch_switch_none _ (fun t htm hts => hnp ⟨t, htm, hts⟩)
    · rename_i hcm
      rw [hcm] at htd
      have hnp : ¬∃ t ∈ (postUnblock k).tasks, t.state = TaskState.ready := htd
      exact dispatch_switch_none _ (fun t htm hts => hnp ⟨t, htm, hts⟩)
  · intro hbd
    cases hc : k.tasks.get? k.current_task with
    | none =>
        exfalso
        unfold BlockDispatchCond at hbd
        rw [hc] at hbd
        exact hbd
    | some c =>
        have heq : rtos_block_task k to_ =
            dispatchAndCount
              { k with
                tasks := modifyAt k.tasks k.current_task
                  (fun t =>
                    { t with
                      state := TaskState.blocked
                      blocked_tick := k.tick_count
                      timeout := to_ }) } := by
          unfold rtos_block_task
          rw [hc]
        rw [heq]
        unfold BlockDispatchCond at hbd
        rw [hc] at hbd
        have hx : ∃ t ∈ modifyAt k.tasks k.current_task
            (fun t =>
              { t with
                state := TaskState.blocked
                blocked_tick := k.tick_count
                timeout := to_ }), t.state = TaskState.ready := hbd
        exact dispatch_switch_some _ hx
  · intro hbd
    cases hc : k.tasks.get? k.current_task with
    | none =>
        have heq : rtos_block_task k to_ = k := by
          unfold rtos_block_task
          rw [hc]
        rw [heq]
    | some c =>
        have heq : rtos_block_task k to_ =
            dispatchAndCount
              { k with
                tasks := modifyAt k.tasks k.current_task
                  (fun t =>
                    { t with
                      state := TaskState.blocked
                      blocked_tick := k.tick_count
                      timeout := to_ }) } := by
          unfold rtos_block_task
          rw [hc]
        rw [heq]
        unfold BlockDispatchCond at hbd
        rw [hc] at hbd
        have hnp : ¬∃ t ∈ modifyAt k.tasks k.current_task
            (fun t =>
              { t with
                state := TaskState.blocked
                blocked_tick := k.tick_count
                timeout := to_ }), t.state = TaskState.ready := hbd
        exact dispatch_switch_none _ (fun t htm hts => hnp ⟨t, htm, hts⟩)
  · rcases schedule_spec { k with scheduler_running := true } with ⟨hs, _⟩ | ⟨t, htm, hts, hs⟩
    · unfold rtos_start
      rw [hs]
    · unfold rtos_start
      rw [hs]
      rfl

/-- A kernel with one `Ready` task, used for the `rtos_start` part of C8. -/
def c8StartKernel : Kernel := rtos_create_task rtos_init 1 0 0

/-- A high-priority `Ready` task with a late deadline (slot 0). -/
def c8HighReady : TCB where
  id := 0
  priority := 5
  deadline := 20
  period := 0
  state := TaskState.ready
  blocked_tick := 0
  timeout := 0
  run_count := 0

/-- A low-priority `Running` task with an early deadline (slot 1). -/
def c8RunLow : TCB where
  id := 1
  priority := 2
  deadline := 10
  period := 0
  state := TaskState.running
  blocked_tick := 0
  timeout := 0
  run_count := 0

/-- Low-priority task running, high-priority later-deadline task ready:
preemption fires, but the buggy heap re-selects the running task itself. -/
def c8SameKernel : Kernel where
  tasks := [c8HighReady, c8RunLow]
  current_task := 1
  tick_count := 0
  total_switches := 0
  scheduler_running := true

/-- C8 counterexample, two concrete runs.  (a) `rtos_start` on a kernel with
one `Ready` task dispatches it (identity of `current` changes from none to
task 0) yet `total_switches` stays 0, where the claim demands 1.  (b) a
`tick()` on `c8SameKernel` preempts the running task and — because of the
heap bug — re-dispatches that very same task: `current_task` is unchanged
and the same task is `Running` again, yet `total_switches` is incremented
to 1, where the claim demands 0. -/
theorem c8_identity_count_mismatch :
    ((rtos_start c8StartKernel).total_switches = 0 ∧
      (c8StartKernel.tasks.get? 0).map TCB.state = some TaskState.ready ∧
      ((rtos_start c8StartKernel).tasks.get? 0).map TCB.state
        = some TaskState.running) ∧
    ((rtos_tick_handler c8SameKernel).current_task = c8SameKernel.current_task ∧
      ((rtos_tick_handler c8SameKernel).tasks.get? 1).map TCB.state
        = some TaskState.running ∧
      (rtos_tick_handler c8SameKernel).total_switches
        = c8SameKernel.total_switches + 1) := by
  decide

/-- C8 witness: the accounting theorem applied at concrete inputs — a tick
that dispatches, a tick that does not, a block that dispatches, a block on an
empty slot, and an `rtos_start`. -/
theorem c8_switch_accounting_witness :
    (rtos_tick_handler c8StartKernel).total_switches
        = c8StartKernel.total_switches + 1 ∧
      (rtos_tick_handler rtos_init).total_switches = rtos_init.total_switches ∧
      (rtos_block_task c8SameKernel 9).total_switches
        = c8SameKernel.total_switches + 1 ∧
      (rtos_block_task rtos_init 9).total_switches = rtos_init.total_switches ∧
      (rtos_start c8StartKernel).total_switches = c8StartKernel.total_switches := by
  refine ⟨(c8_switch_accounting c8StartKernel 9).1 ?_,
    (c8_switch_accounting rtos_init 9).2.1 ?_,
    (c8_switch_accounting c8SameKernel 9).2.2.1 ?_,
    (c8_switch_accounting rtos_init 9).2.2.2.1 ?_,
    (c8_switch_accounting c8StartKernel 9).2.2.2.2⟩
  · exact ⟨freshTCB 0 1 0 0, by decide, by decide⟩
  · exact (by decide : ¬∃ t ∈ (postUnblock rtos_init).tasks, t.state = TaskState.ready)
  · exact ⟨c8HighReady, by decide, by decide⟩
  · exact fun h => h

/-! ## RMS task selection (C10), from `realtime_scheduling_demo.c`

`int` fields are modelled as `Int`; `INT_MAX` is the 32-bit `2147483647`
sentinel that the C selection loop starts from.  The `double` field
`utilization` (and the scheduler's `total_utilization`) is omitted: it is
floating point and never read by the selection logic. -/

/-- The C `rt_task_t`, without its floating-point `utilization` field and the
diagnostic `name`. -/
structure RTTask where
  id : Int
  period : Int
  execution_time : Int
  deadline : Int
  priority : Int
  next_release : Int
  next_deadline : Int
  remaining_execution : Int
  instances_released : Int
  instances_completed : Int
  instances_missed : Int
  active : Bool
  deadline_missed : Bool
deriving DecidableEq, Repr

/-- The C `rt_scheduler_t` (minus the floating-point `total_utilization`). -/
structure RTScheduler where
  tasks : List RTTask
  current_time : Int
  hyperperiod : Int
  total_deadline_misses : Int
  total_preemptions : Int
  schedulable : Bool
deriving DecidableEq, Repr

/-- C `INT_MAX` (32-bit). -/
def INT_MAX : Int := 2147483647

/-- C `add_rt_task`: appends a task when below `MAX_RT_TASKS = 10`; the
deadline defaults to the period when passed as 0, and the RMS priority field
is set to the period itself (smaller period = higher priority). -/
def add_rt_task (s : RTScheduler) (id period exec_time deadline : Int) : RTScheduler :=
  if s.tasks.length < 10 then
    { s with
      tasks := s.tasks ++
        [{ id := id
           period := period
           execution_time := exec_time
           deadline := if deadline = 0 then period else deadline
           priority := period
           next_release := 0
           next_deadline := if deadline = 0 then period else deadline
           remaining_execution := 0
           instances_released := 0
           instances_completed := 0
           instances_missed := 0
           active := false
           deadline_missed := false }] }
  else s

/-- The selection loop of C `select_rms_task`: walk the table in index order,
keeping the first task seen that is active with work remaining and has a
`priority` strictly below the best seen so far (initially `INT_MAX`). -/
def select_rms_aux : List RTTask → Nat → Option Nat × Int → Option Nat × Int
  | [], _, acc => acc
  | t :: rest, idx, acc =>
      select_rms_aux rest (idx + 1)
        (if t.active = true ∧ 0 < t.remaining_execution ∧ t.priority < acc.2
         then (some idx, t.priority) else acc)

/-- C `select_rms_task`, returning the index of the selected task. -/
def select_rms_task (s : RTScheduler) : Option Nat :=
  (select_rms_aux s.tasks 0 (none, INT_MAX)).1

/-- Eligibility for RMS selection: active with work remaining. -/
def rtEligible (t : RTTask) : Prop := t.active = true ∧ 0 < t.remaining_execution

/-- The loop invariant of `select_rms_aux` over the processed prefix
`seen`: with no selection yet the best is still `INT_MAX` and nothing
eligible below `INT_MAX` was seen; with a selection, the selected index holds
an eligible task realizing the strict minimum over the earlier entries and
the minimum over all seen entries (among priorities below `INT_MAX`). -/
def AccOK (seen : List RTTask) (sel : Option Nat) (best : Int) : Prop :=
  (sel = none → best = INT_MAX ∧
    ∀ t ∈ seen, ¬(rtEligible t ∧ t.priority < INT_MAX)) ∧
  (∀ i, sel = some i → best < INT_MAX ∧
    ∃ t, seen.get? i = some t ∧ rtEligible t ∧ t.priority = best ∧
      (∀ j u, seen.get? j = some u → rtEligible u → u.priority < INT_MAX →
        best ≤ u.priority) ∧
      (∀ j u, j < i → seen.get? j = some u → rtEligible u → u.priority < INT_MAX →
        best < u.priority))

/-- A `get?` hit is at an in-range index. -/
theorem get_some_lt {α : Type} (l : List α) (n : Nat) (a : α) (h : l.get? n = some a) :
    n < l.length := by
  by_contra hn
  rw [List.get?_eq_none.2 (by omega)] at h
  exact Option.noConfusion h

/-- One step of the loop preserves the invariant. -/
theorem AccOK_step (seen : List RTTask) (sel : Option Nat) (best : Int) (t : RTTask)
    (h : AccOK seen sel best) :
    AccOK (seen ++ [t])
      (if t.active = true ∧ 0 < t.remaining_execution ∧ t.priority < best
        then ((some seen.length : Option Nat), t.priority) else (sel, best)).1
      (if t.active = true ∧ 0 < t.remaining_execution ∧ t.priority < best
        then ((some seen.length : Option Nat), t.priority) else (sel, best)).2 := by
  have hbest : best ≤ INT_MAX := by
    rcases hs : sel with _ | i
    · rw [(h.1 hs).1]
    · exact le_of_lt (h.2 i hs).1
  split
  · rename_i hc
    constructor
    · intro hx
      exact Option.noConfusion hx
    · intro i hx
      have hi : i = seen.length := (Option.some.inj hx).symm
      subst hi
      refine ⟨by omega, t, ?_, ⟨hc.1, hc.2.1⟩, rfl, ?_, ?_⟩
      · rw [List.get?_concat_length]
      · intro j u hj hu hup
        by_cases hjl : j < seen.length
        · rw [List.get?_append hjl] at hj
          rcases hs : sel with _ | i0
          · exact absurd ⟨hu, hup⟩ ((h.1 hs).2 u (List.get?_mem hj))
          · obtain ⟨hbl, u0, hu0, hel0, hp0, hmin0, hfirst0⟩ := h.2 i0 hs
            have := hmin0 j u hj hu hup
            omega
        · have hjlen := get_some_lt _ j u hj
          rw [List.length_append] at hjlen
          have hjl2 : j = seen.length := by
            simp at hjlen
            omega
          subst hjl2
          rw [List.get?_concat_length] at hj
          have ht := Option.some.inj hj
          subst ht
          omega
      · intro j u hjlt hj hu hup
        rw [List.get?_append hjlt] at hj
        rcases hs : sel with _ | i0
        · exact absurd ⟨hu, hup⟩ ((h.1 hs).2 u (List.get?_mem hj))
        · obtain ⟨hbl, u0, hu0, hel0, hp0, hmin0, hfirst0⟩ := h.2 i0 hs
          have := hmin0 j u hj hu hup
          omega
  · rename_i hc
    constructor
    · intro hs
      obtain ⟨h1, h2⟩ := h.1 hs
      refine ⟨h1, ?_⟩
      intro u hu hx
      rcases List.mem_append.1 hu with hu | hu
      · exact h2 u hu hx
      · have hut : u = t := by simpa using hu
        subst hut
        rw [h1] at hc
        exact hc ⟨hx.1.1, hx.1.2, hx.2⟩
    · intro i hs
      obtain ⟨h1, u0, hu0, hel0, hp0, hmin0, hfirst0⟩ := h.2 i hs
      have hil : i < seen.length := get_some_lt _ i u0 hu0
      refine ⟨h1, u0, ?_, hel0, hp0, ?_, ?_⟩
      · rw [List.get?_append hil]
        exact hu0
      · intro j u hj hu hup
        by_cases hjl : j < seen.length
        · rw [List.get?_append hjl] at hj
          exact hmin0 j u hj hu hup
        · have hjlen := get_some_lt _ j u hj
          rw [List.length_append] at hjlen
          have hjl2 : j = seen.length := by
            simp at hjlen
            omega
          subst hjl2
          rw [List.get?_concat_length] at hj
          have ht := Option.some.inj hj
          subst ht
          by_cases hlt : t.priority < best
          · exact absurd ⟨hu.1, hu.2, hlt⟩ hc
          · omega
      · intro j u hjlt hj hu hup
        have hjl : j < seen.length := by omega
        rw [List.get?_append hjl] at hj
        exact hfirst0 j u hjlt hj hu hup

/-- Running the loop from a state satisfying the invariant yields the
invariant for the whole traversed list. -/
theorem select_aux_inv : ∀ (l seen : List RTTask) (sel : Option Nat) (best : Int),
    AccOK seen sel best →
    AccOK (seen ++ l) (select_rms_aux l seen.length (sel, best)).1
      (select_rms_aux l seen.length (sel, best)).2 := by
  intro l
  induction l with
  | nil =>
      intro seen sel best h
      simpa [select_rms_aux] using h
  | cons t rest ih =>
      intro seen sel best h
      have hstep := AccOK_step seen sel best t h
      have h2 := ih (seen ++ [t])
        (if t.active = true ∧ 0 < t.remaining_execution ∧ t.priority < best
          then ((some seen.length : Option Nat), t.priority) else (sel, best)).1
        (if t.active = true ∧ 0 < t.remaining_execution ∧ t.priority < best
          then ((some seen.length : Option Nat), t.priority) else (sel, best)).2
        hstep
      simpa [select_rms_aux, List.length_append, List.append_assoc] using h2

/-- C10 (amended): `select_rms_task` returns `NULL` iff no task is active
with work remaining and `priority < INT_MAX` (a task whose `priority` field
equals `INT_MAX` can never be selected, because the loop's strict comparison
starts from the `INT_MAX` sentinel); otherwise it returns the lowest-indexed
task among those of numerically smallest `priority` below `INT_MAX`; and
`add_rt_task` sets the stored `priority` field to the task's `period`. -/
theorem c10_select_rms_spec (s : RTScheduler) :
    (select_rms_task s = none ↔
        ∀ t ∈ s.tasks, ¬(rtEligible t ∧ t.priority < INT_MAX)) ∧
      (∀ i, select_rms_task s = some i →
        ∃ t, s.tasks.get? i = some t ∧ rtEligible t ∧ t.priority < INT_MAX ∧
          (∀ j u, s.tasks.get? j = some u → rtEligible u → u.priority < INT_MAX →
            t.priority ≤ u.priority) ∧
          (∀ j u, j < i → s.tasks.get? j = some u → rtEligible u →
            u.priority < INT_MAX → t.priority < u.priority)) ∧
      (∀ id0 period exec dl, s.tasks.length < 10 →
        ((add_rt_task s id0 period exec dl).tasks.get? s.tasks.length).map RTTask.priority
          = some period) := by
  have hbase : AccOK [] none INT_MAX := by
    constructor
    · intro _
      exact ⟨rfl, fun t ht => absurd ht (List.not_mem_nil t)⟩
    · intro i h
      exact Option.noConfusion h
  have hinv := select_aux_inv s.tasks [] none INT_MAX hbase
  rw [List.nil_append] at hinv
  refine ⟨⟨?_, ?_⟩, ?_, ?_⟩
  · intro hn
    exact (hinv.1 hn).2
  · intro hall
    cases hsel : select_rms_task s with
    | none => rfl
    | some i =>
        exfalso
        obtain ⟨hbl, t, hgt, hel, hp, _, _⟩ := hinv.2 i hsel
        exact hall t (List.get?_mem hgt) ⟨hel, by omega⟩
  · intro i hsel
    obtain ⟨hbl, t, hgt, hel, hp, hmin, hfirst⟩ := hinv.2 i hsel
    refine ⟨t, hgt, hel, by omega, ?_, ?_⟩
    · intro j u hj hu hup
      have := hmin j u hj hu hup
      omega
    · intro j u hjlt hj hu hup
      have := hfirst j u hjlt hj hu hup
      omega
  · intro id0 period exec dl hlen
    unfold add_rt_task
    rw [if_pos hlen]
    show ((s.tasks ++ [_]).get? s.tasks.length).map RTTask.priority = some period
    rw [List.get?_concat_length]
    rfl

/-- An active task with work remaining whose priority field is `INT_MAX`. -/
def c10MaxTask : RTTask where
  id := 1
  period := INT_MAX
  execution_time := 1
  deadline := INT_MAX
  priority := INT_MAX
  next_release := 0
  next_deadline := INT_MAX
  remaining_execution := 1
  instances_released := 1
  instances_completed := 0
  instances_missed := 0
  active := true
  deadline_missed := false

/-- A scheduler snapshot holding only `c10MaxTask`. -/
def c10MaxSched : RTScheduler where
  tasks := [c10MaxTask]
  current_time := 0
  hyperperiod := 0
  total_deadline_misses := 0
  total_preemptions := 0
  schedulable := false

/-- C10 counterexample: a snapshot with one task that is active and has
remaining work, yet `select_rms_task` returns `NULL` — its `priority` equals
`INT_MAX`, so the loop's strict comparison against the `INT_MAX` sentinel
never admits it, contradicting the claimed "returns NULL iff no task is
active with remaining_execution > 0". -/
theorem c10_intmax_task_never_selected :
    select_rms_task c10MaxSched = none ∧
      c10MaxTask.active = true ∧ 0 < c10MaxTask.remaining_execution := by
  decide

/-- First of two equal-priority eligible tasks (table index 0). -/
def c10TaskA : RTTask where
  id := 1
  period := 10
  execution_time := 3
  deadline := 10
  priority := 10
  next_release := 0
  next_deadline := 10
  remaining_execution := 2
  instances_released := 1
  instances_completed := 0
  instances_missed := 0
  active := true
  deadline_missed := false

/-- Second task with the same priority 10 (table index 1). -/
def c10TaskB : RTTask where
  id := 2
  period := 10
  execution_time := 4
  deadline := 10
  priority := 10
  next_release := 0
  next_deadline := 10
  remaining_execution := 1
  instances_released := 1
  instances_completed := 0
  instances_missed := 0
  active := true
  deadline_missed := false

/-- Two eligible tasks of equal priority: the tie must go to index 0. -/
def c10TwoSched : RTScheduler where
  tasks := [c10TaskA, c10TaskB]
  current_time := 0
  hyperperiod := 0
  total_deadline_misses := 0
  total_preemptions := 0
  schedulable := false

/-- The empty scheduler snapshot. -/
def c10EmptySched : RTScheduler where
  tasks := []
  current_time := 0
  hyperperiod := 0
  total_deadline_misses := 0
  total_preemptions := 0
  schedulable := false

/-- C10 witness: the spec theorem applied to concrete snapshots — the
selected index of `c10TwoSched` is 0 with the stated minimality, and
`add_rt_task` on the empty scheduler records `priority = period = 10`. -/
theorem c10_select_rms_spec_witness :
    select_rms_task c10TwoSched = some 0 ∧
      (∃ t, c10TwoSched.tasks.get? 0 = some t ∧ rtEligible t ∧ t.priority < INT_MAX ∧
        (∀ j u, c10TwoSched.tasks.get? j = some u → rtEligible u →
          u.priority < INT_MAX → t.priority ≤ u.priority) ∧
        (∀ j u, j < 0 → c10TwoSched.tasks.get? j = some u → rtEligible u →
          u.priority < INT_MAX → t.priority < u.priority)) ∧
      ((add_rt_task c10EmptySched 1 10 3 0).tasks.get? 0).map RTTask.priority
        = some 10 := by
  refine ⟨by decide, (c10_select_rms_spec c10TwoSched).2.1 0 (by decide), ?_⟩
  exact (c10_select_rms_spec c10EmptySched).2.2 1 10 3 0 (by decide)
